import Mathlib

/-!
Verification development for the emulator-lifecycle subsystem and the mod
parameter helper of the firebase-tools repository.

The repository portion available consists of the emulator type surface
(`src/emulator/types.ts`: `Emulators`, `EmulatorInstance`, `EmulatorInfo`,
`JavaEmulatorCommand`, `JavaEmulatorDetails`, `Address`) and a test suite for
`mods/paramHelper`.  The implementations of the artifact integrity checker,
the lifecycle coordinator and `paramHelper.getParams` are not part of the
sampled sources; following the specification document they are modelled here
from the spec's own words (each such definition carries a
`Modelled from the spec:` doc comment).
-/

/-- The `Emulators` enumeration from `src/emulator/types.ts`. -/
inductive Emulators
  | FUNCTIONS
  | FIRESTORE
  | DATABASE
  | HOSTING
deriving DecidableEq, Repr

/-- The `Address` record from `src/emulator/types.ts`: `{host, port}`. -/
structure Address where
  host : String
  port : Nat
deriving DecidableEq, Repr

/-- The `JavaEmulatorCommand` record from `src/emulator/types.ts`. -/
structure JavaEmulatorCommand where
  binary : String
  args : List String
deriving DecidableEq, Repr

/-- Measured metadata of a file on disk: its byte size and its checksum.
`ensureAvailable` only ever inspects these two measurements, so a file is
modelled by them. -/
structure FileMeta where
  size : Nat
  checksum : String
deriving DecidableEq, Repr

/-- The artifact-descriptor part of `JavaEmulatorDetails` from
`src/emulator/types.ts` (the runtime fields `instance` and `stdout` carry no
data relevant to artifact verification): name, cache directory, remote URL,
expected byte size, expected checksum and resolved local path. -/
structure ArtifactDescriptor where
  name : String
  cacheDir : String
  remoteUrl : String
  expectedSize : Nat
  expectedChecksum : String
  localPath : String
deriving DecidableEq, Repr

/-- A file matches an artifact descriptor when its measured size and checksum
both equal the expected values. -/
def matchesExpected (a : ArtifactDescriptor) (f : FileMeta) : Bool :=
  decide (f.size = a.expectedSize) && decide (f.checksum = a.expectedChecksum)

/-- Result of `ensureAvailable`: the validated local path, or one of the two
failure modes of the spec's error taxonomy for this component. -/
inductive EnsureResult
  | ok (path : String)
  | downloadError
  | integrityError
deriving DecidableEq, Repr

/-- Observable outcome of one `ensureAvailable` run: its result, the state of
the canonical local path afterwards, the state of the temporary download
location afterwards (`none` = no temporary artifact left behind), and the
number of network calls performed. -/
structure EnsureOutcome where
  result : EnsureResult
  localAfter : Option FileMeta
  tempAfter : Option FileMeta
  networkCalls : Nat
deriving DecidableEq, Repr

/-- Modelled from the spec: the download half of `ensureAvailable` (the
implementation is not among the sampled sources).  Fetch from the remote URL
to a temporary location (`fetched = none` models a network/storage failure),
verify size and checksum, then atomically move into place; on mismatch delete
the temporary artifact and fail with an integrity error, leaving the canonical
path unchanged. -/
def fetchAndVerify (a : ArtifactDescriptor) (localBefore : Option FileMeta)
    (fetched : Option FileMeta) : EnsureOutcome :=
  match fetched with
  | none => ⟨.downloadError, localBefore, none, 1⟩
  | some g =>
    if matchesExpected a g then
      ⟨.ok a.localPath, some g, none, 1⟩
    else
      ⟨.integrityError, localBefore, none, 1⟩

/-- Modelled from the spec: `ensureAvailable` of the artifact descriptor and
integrity checker (the implementation is not among the sampled sources).  If
the local path exists and its measured size and checksum match the expected
values, return immediately with no network access; otherwise fetch, verify and
move into place via `fetchAndVerify`.  `localBefore` is the file currently at
the canonical local path, `fetched` is what a fetch from the remote URL would
yield. -/
def ensureAvailable (a : ArtifactDescriptor) (localBefore : Option FileMeta)
    (fetched : Option FileMeta) : EnsureOutcome :=
  match localBefore with
  | some f =>
    if matchesExpected a f then
      ⟨.ok a.localPath, some f, none, 0⟩
    else
      fetchAndVerify a localBefore fetched
  | none => fetchAndVerify a localBefore fetched

/-- C2: if the local file exists and both its measured size and checksum equal
the expected values, `ensureAvailable` returns the validated local path
immediately and performs zero network calls. -/
theorem ensureAvailable_warm_cache (a : ArtifactDescriptor) (f : FileMeta)
    (fetched : Option FileMeta)
    (hsize : f.size = a.expectedSize) (hsum : f.checksum = a.expectedChecksum) :
    (ensureAvailable a (some f) fetched).result = .ok a.localPath ∧
    (ensureAvailable a (some f) fetched).networkCalls = 0 ∧
    (ensureAvailable a (some f) fetched).localAfter = some f := by
  have hm : matchesExpected a f = true := by
    simp [matchesExpected, hsize, hsum]
  simp [ensureAvailable, hm]

/-- Witness for C2 at a concrete descriptor and file. -/
theorem ensureAvailable_warm_cache_witness :
    (ensureAvailable ⟨"firestore", "/cache", "https://x", 5, "abc", "/cache/bin"⟩
        (some ⟨5, "abc"⟩) none).result = .ok "/cache/bin" ∧
    (ensureAvailable ⟨"firestore", "/cache", "https://x", 5, "abc", "/cache/bin"⟩
        (some ⟨5, "abc"⟩) none).networkCalls = 0 ∧
    (ensureAvailable ⟨"firestore", "/cache", "https://x", 5, "abc", "/cache/bin"⟩
        (some ⟨5, "abc"⟩) none).localAfter = some ⟨5, "abc"⟩ :=
  ensureAvailable_warm_cache ⟨"firestore", "/cache", "https://x", 5, "abc", "/cache/bin"⟩
    ⟨5, "abc"⟩ none rfl rfl

/-- C5: when the download fails verification the call fails with an integrity
error, the temporary artifact is deleted, the canonical path is left exactly
as it was (no partially-written or corrupt binary is installed), and a
subsequent run performs the fetch again rather than reusing the corrupt
download. -/
theorem ensureAvailable_integrity_failure (a : ArtifactDescriptor)
    (localBefore : Option FileMeta) (g : FileMeta)
    (hcold : ∀ f, localBefore = some f → matchesExpected a f = false)
    (hbad : matchesExpected a g = false) :
    (ensureAvailable a localBefore (some g)).result = .integrityError ∧
    (ensureAvailable a localBefore (some g)).tempAfter = none ∧
    (ensureAvailable a localBefore (some g)).localAfter = localBefore ∧
    (∀ fetched2,
      1 ≤ (ensureAvailable a
            ((ensureAvailable a localBefore (some g)).localAfter) fetched2).networkCalls) := by
  have hrun : ensureAvailable a localBefore (some g) =
      ⟨.integrityError, localBefore, none, 1⟩ := by
    match localBefore with
    | none => simp [ensureAvailable, fetchAndVerify, hbad]
    | some f =>
      have hf : matchesExpected a f = false := hcold f rfl
      simp [ensureAvailable, fetchAndVerify, hf, hbad]
  refine ⟨by simp [hrun], by simp [hrun], by simp [hrun], ?_⟩
  intro fetched2
  rw [hrun]
  match hl : localBefore with
  | none =>
    match fetched2 with
    | none => simp [ensureAvailable, fetchAndVerify]
    | some g2 =>
      by_cases h2 : matchesExpected a g2 = true
      · simp [ensureAvailable, fetchAndVerify, h2]
      · simp [ensureAvailable, fetchAndVerify, h2]
  | some f =>
    have hf : matchesExpected a f = false := hcold f rfl
    match fetched2 with
    | none => simp [ensureAvailable, fetchAndVerify, hf]
    | some g2 =>
      by_cases h2 : matchesExpected a g2 = true
      · simp [ensureAvailable, fetchAndVerify, hf, h2]
      · simp [ensureAvailable, fetchAndVerify, hf, h2]

/-- Witness for C5 at a concrete descriptor, an empty cache and a corrupt
download. -/
theorem ensureAvailable_integrity_failure_witness :
    (ensureAvailable ⟨"database", "/c", "https://y", 7, "ff", "/c/db"⟩ none
        (some ⟨7, "00"⟩)).result = .integrityError ∧
    (ensureAvailable ⟨"database", "/c", "https://y", 7, "ff", "/c/db"⟩ none
        (some ⟨7, "00"⟩)).tempAfter = none ∧
    (ensureAvailable ⟨"database", "/c", "https://y", 7, "ff", "/c/db"⟩ none
        (some ⟨7, "00"⟩)).localAfter = none ∧
    (∀ fetched2,
      1 ≤ (ensureAvailable ⟨"database", "/c", "https://y", 7, "ff", "/c/db"⟩
            ((ensureAvailable ⟨"database", "/c", "https://y", 7, "ff", "/c/db"⟩ none
              (some ⟨7, "00"⟩)).localAfter) fetched2).networkCalls) :=
  ensureAvailable_integrity_failure ⟨"database", "/c", "https://y", 7, "ff", "/c/db"⟩
    none ⟨7, "00"⟩ (by intro f h; cases h) (by decide)

/-- C6: if the local file exists but its measurements differ from the expected
values, `ensureAvailable` treats it as absent and re-fetches (one network
call), and on a successful download leaves at the canonical path a file whose
size and checksum equal the expected values exactly. -/
theorem ensureAvailable_refetch_corrupt (a : ArtifactDescriptor) (f g : FileMeta)
    (hf : matchesExpected a f = false)
    (hsize : g.size = a.expectedSize) (hsum : g.checksum = a.expectedChecksum) :
    (ensureAvailable a (some f) (some g)).networkCalls = 1 ∧
    (ensureAvailable a (some f) (some g)).result = .ok a.localPath ∧
    (ensureAvailable a (some f) (some g)).localAfter = some g ∧
    g.size = a.expectedSize ∧ g.checksum = a.expectedChecksum := by
  have hg : matchesExpected a g = true := by
    simp [matchesExpected, hsize, hsum]
  refine ⟨?_, ?_, ?_, hsize, hsum⟩ <;>
    simp [ensureAvailable, fetchAndVerify, hf, hg]

/-- Witness for C6 at a concrete descriptor, a corrupt cached file and a good
download. -/
theorem ensureAvailable_refetch_corrupt_witness :
    (ensureAvailable ⟨"functions", "/c", "https://z", 9, "aa", "/c/fn"⟩
        (some ⟨9, "bb"⟩) (some ⟨9, "aa"⟩)).networkCalls = 1 ∧
    (ensureAvailable ⟨"functions", "/c", "https://z", 9, "aa", "/c/fn"⟩
        (some ⟨9, "bb"⟩) (some ⟨9, "aa"⟩)).result = .ok "/c/fn" ∧
    (ensureAvailable ⟨"functions", "/c", "https://z", 9, "aa", "/c/fn"⟩
        (some ⟨9, "bb"⟩) (some ⟨9, "aa"⟩)).localAfter = some ⟨9, "aa"⟩ ∧
    (9 : Nat) = 9 ∧ "aa" = "aa" :=
  ensureAvailable_refetch_corrupt ⟨"functions", "/c", "https://z", 9, "aa", "/c/fn"⟩
    ⟨9, "bb"⟩ ⟨9, "aa"⟩ (by decide) rfl rfl

/-! ## Lifecycle coordinator

The coordinator implementation is not among the sampled sources; only the
`EmulatorInstance` contract (`start`/`connect`/`stop`) from
`src/emulator/types.ts` is.  The coordinator below is modelled from the spec:
start every instance in declared dependency order, connect every instance only
after all starts succeeded, stop in reverse start order; on a start or connect
failure, abort and tear down what already started before surfacing the error.
A `Behavior` assigns to each instance whether its `start`, `connect` and
`stop` calls succeed; a run is recorded as a trace of events plus the session
states visited. -/

/-- Observable lifecycle events of one session run: a successful `start()`
return, a `start()` failure, a successful `connect()` return, a `connect()`
failure, and a `stop()` call being issued (issued stops are recorded whether
or not the stop itself reports an error). -/
inductive Ev
  | started (i : Nat)
  | startFailed (i : Nat)
  | connected (i : Nat)
  | connectFailed (i : Nat)
  | stopped (i : Nat)
deriving DecidableEq, Repr

/-- The per-session states of the coordinator's state machine. -/
inductive SessionState
  | Idle
  | Starting
  | Connecting
  | Running
  | Stopping
  | Stopped
  | Failed
deriving DecidableEq, Repr

/-- Environment behaviour of the instances in a session: whether instance `i`'s
`start()`, `connect()` and `stop()` calls succeed. -/
structure Behavior where
  startOk : Nat → Bool
  connectOk : Nat → Bool
  stopOk : Nat → Bool

/-- Session-level errors surfaced by the coordinator. -/
inductive SessionError
  | startError (i : Nat)
  | connectError (i : Nat)
deriving DecidableEq, Repr

/-- Modelled from the spec: the start phase of the coordinator (implementation
not among the sampled sources).  Instances are started in declared dependency
order; on the first failure the remaining starts are aborted.  Returns the
events emitted, the list of instances that started (in start order) and the
failing instance, if any. -/
def startPhase (b : Behavior) : List Nat → List Ev × List Nat × Option Nat
  | [] => ([], [], none)
  | i :: rest =>
    if b.startOk i then
      let r := startPhase b rest
      (Ev.started i :: r.1, i :: r.2.1, r.2.2)
    else
      ([Ev.startFailed i], [], some i)

/-- Modelled from the spec: the connect phase of the coordinator
(implementation not among the sampled sources).  Runs only after the start
barrier; aborts at the first `connect()` failure. -/
def connectPhase (b : Behavior) : List Nat → List Ev × Option Nat
  | [] => ([], none)
  | i :: rest =>
    if b.connectOk i then
      let r := connectPhase b rest
      (Ev.connected i :: r.1, r.2)
    else
      ([Ev.connectFailed i], some i)

/-- Modelled from the spec: the stop phase of the coordinator (implementation
not among the sampled sources).  Issues `stop()` on every listed instance in
the given order regardless of individual stop failures; failing stops are
collected (second component), never allowed to abort the teardown. -/
def stopPhase (b : Behavior) : List Nat → List Ev × List Nat
  | [] => ([], [])
  | i :: rest =>
    let r := stopPhase b rest
    (Ev.stopped i :: r.1, if b.stopOk i then r.2 else i :: r.2)

/-- The outcome of one full session run: the event trace, the session states
visited in order, the instances that started (in start order), the collected
stop errors, and the surfaced session error, if any. -/
structure RunResult where
  events : List Ev
  states : List SessionState
  started : List Nat
  stopErrors : List Nat
  error : Option SessionError

/-- Modelled from the spec: one full run of the lifecycle coordinator
(implementation not among the sampled sources).  `order` is the declared
dependency order of the configured instances.  Start all; if a start fails,
stop the already-started instances in reverse start order and surface a start
error (states Idle, Starting, Failed, Stopping, Stopped).  Otherwise connect
all; if a connect fails, tear down likewise and surface a connect error.
Otherwise the session runs and is then shut down, stopping all instances in
reverse start order. -/
def runSession (order : List Nat) (b : Behavior) : RunResult :=
  let s := startPhase b order
  match s.2.2 with
  | some i =>
    let t := stopPhase b s.2.1.reverse
    ⟨s.1 ++ t.1, [.Idle, .Starting, .Failed, .Stopping, .Stopped],
      s.2.1, t.2, some (.startError i)⟩
  | none =>
    let c := connectPhase b order
    match c.2 with
    | some i =>
      let t := stopPhase b s.2.1.reverse
      ⟨s.1 ++ c.1 ++ t.1, [.Idle, .Starting, .Connecting, .Failed, .Stopping, .Stopped],
        s.2.1, t.2, some (.connectError i)⟩
    | none =>
      let t := stopPhase b s.2.1.reverse
      ⟨s.1 ++ c.1 ++ t.1, [.Idle, .Starting, .Connecting, .Running, .Stopping, .Stopped],
        s.2.1, t.2, none⟩

/-- The instances whose `start()` returned successfully, in trace order. -/
def startOrder (evs : List Ev) : List Nat :=
  evs.filterMap fun e => match e with | .started i => some i | _ => none

/-- The instances that received `stop()`, in trace order. -/
def stopOrder (evs : List Ev) : List Nat :=
  evs.filterMap fun e => match e with | .stopped i => some i | _ => none

theorem startPhase_all_ok (b : Behavior) :
    ∀ order : List Nat, (startPhase b order).2.2 = none →
      (startPhase b order).1 = order.map Ev.started ∧
      (startPhase b order).2.1 = order := by
  intro order
  induction order with
  | nil => intro _; exact ⟨rfl, rfl⟩
  | cons i rest ih =>
    intro h
    by_cases hi : b.startOk i = true
    · have hrest : (startPhase b rest).2.2 = none := by
        simpa [startPhase, hi] using h
      have := ih hrest
      simp [startPhase, hi, this.1, this.2]
    · simp [startPhase, hi] at h

theorem connected_not_mem_startPhase (b : Behavior) :
    ∀ (order : List Nat) (i : Nat), Ev.connected i ∉ (startPhase b order).1 := by
  intro order
  induction order with
  | nil => intro i h; simp [startPhase] at h
  | cons j rest ih =>
    intro i h
    by_cases hj : b.startOk j = true
    · simp [startPhase, hj] at h
      exact ih i h
    · simp [startPhase, hj] at h

theorem connectFailed_not_mem_startPhase (b : Behavior) :
    ∀ (order : List Nat) (i : Nat), Ev.connectFailed i ∉ (startPhase b order).1 := by
  intro order
  induction order with
  | nil => intro i h; simp [startPhase] at h
  | cons j rest ih =>
    intro i h
    by_cases hj : b.startOk j = true
    · simp [startPhase, hj] at h
      exact ih i h
    · simp [startPhase, hj] at h

theorem stopPhase_events (b : Behavior) :
    ∀ order : List Nat, (stopPhase b order).1 = order.map Ev.stopped := by
  intro order
  induction order with
  | nil => rfl
  | cons i rest ih => simp [stopPhase, ih]

theorem startOrder_startPhase (b : Behavior) :
    ∀ order : List Nat, startOrder (startPhase b order).1 = (startPhase b order).2.1 := by
  intro order
  induction order with
  | nil => rfl
  | cons i rest ih =>
    by_cases hi : b.startOk i = true
    · simp [startPhase, hi, startOrder] at ih ⊢
      exact ih
    · simp [startPhase, hi, startOrder]

theorem startOrder_connectPhase (b : Behavior) :
    ∀ order : List Nat, startOrder (connectPhase b order).1 = [] := by
  intro order
  induction order with
  | nil => rfl
  | cons i rest ih =>
    by_cases hi : b.connectOk i = true
    · simp [connectPhase, hi, startOrder] at ih ⊢
      exact ih
    · simp [connectPhase, hi, startOrder]

theorem stopOrder_startPhase (b : Behavior) :
    ∀ order : List Nat, stopOrder (startPhase b order).1 = [] := by
  intro order
  induction order with
  | nil => rfl
  | cons i rest ih =>
    by_cases hi : b.startOk i = true
    · simp [startPhase, hi, stopOrder] at ih ⊢
      exact ih
    · simp [startPhase, hi, stopOrder]

theorem stopOrder_connectPhase (b : Behavior) :
    ∀ order : List Nat, stopOrder (connectPhase b order).1 = [] := by
  intro order
  induction order with
  | nil => rfl
  | cons i rest ih =>
    by_cases hi : b.connectOk i = true
    · simp [connectPhase, hi, stopOrder] at ih ⊢
      exact ih
    · simp [connectPhase, hi, stopOrder]

theorem stopOrder_stopPhase (b : Behavior) (order : List Nat) :
    stopOrder (stopPhase b order).1 = order := by
  rw [stopPhase_events]
  induction order with
  | nil => rfl
  | cons i rest ih => simp [stopOrder] at ih ⊢; exact ih

theorem runSession_eq_startFail (order : List Nat) (b : Behavior) (fi : Nat)
    (h : (startPhase b order).2.2 = some fi) :
    runSession order b =
      ⟨(startPhase b order).1 ++ (stopPhase b (startPhase b order).2.1.reverse).1,
        [.Idle, .Starting, .Failed, .Stopping, .Stopped],
        (startPhase b order).2.1,
        (stopPhase b (startPhase b order).2.1.reverse).2,
        some (.startError fi)⟩ := by
  simp [runSession, h]

theorem runSession_eq_connectFail (order : List Nat) (b : Behavior) (fi : Nat)
    (hs : (startPhase b order).2.2 = none) (hc : (connectPhase b order).2 = some fi) :
    runSession order b =
      ⟨(startPhase b order).1 ++ (connectPhase b order).1 ++
          (stopPhase b (startPhase b order).2.1.reverse).1,
        [.Idle, .Starting, .Connecting, .Failed, .Stopping, .Stopped],
        (startPhase b order).2.1,
        (stopPhase b (startPhase b order).2.1.reverse).2,
        some (.connectError fi)⟩ := by
  simp [runSession, hs, hc]

theorem runSession_eq_ok (order : List Nat) (b : Behavior)
    (hs : (startPhase b order).2.2 = none) (hc : (connectPhase b order).2 = none) :
    runSession order b =
      ⟨(startPhase b order).1 ++ (connectPhase b order).1 ++
          (stopPhase b (startPhase b order).2.1.reverse).1,
        [.Idle, .Starting, .Connecting, .Running, .Stopping, .Stopped],
        (startPhase b order).2.1,
        (stopPhase b (startPhase b order).2.1.reverse).2,
        none⟩ := by
  simp [runSession, hs, hc]

/-- C1: `connect()` is invoked on an instance only after `start()` has
returned successfully for every instance in the session: whenever the trace
contains a connect invocation — a successful connect return or a failed
connect — the trace splits into a first part containing a successful start
event for every configured instance and no connect invocation of any kind,
and a second part containing the connect invocation in question. -/
theorem connect_after_start_barrier (order : List Nat) (b : Behavior) (i : Nat)
    (h : Ev.connected i ∈ (runSession order b).events ∨
      Ev.connectFailed i ∈ (runSession order b).events) :
    ∃ l₁ l₂, (runSession order b).events = l₁ ++ l₂ ∧
      (∀ j ∈ order, Ev.started j ∈ l₁) ∧
      (∀ k, Ev.connected k ∉ l₁ ∧ Ev.connectFailed k ∉ l₁) ∧
      (Ev.connected i ∈ l₂ ∨ Ev.connectFailed i ∈ l₂) := by
  rcases hss : (startPhase b order).2.2 with _ | fi
  · have hstarts := startPhase_all_ok b order hss
    have hnc : Ev.connected i ∉ (startPhase b order).1 :=
      connected_not_mem_startPhase b order i
    have hncf : Ev.connectFailed i ∉ (startPhase b order).1 :=
      connectFailed_not_mem_startPhase b order i
    rcases hcc : (connectPhase b order).2 with _ | fj
    · rw [runSession_eq_ok order b hss hcc] at h ⊢
      refine ⟨(startPhase b order).1,
        (connectPhase b order).1 ++ (stopPhase b (startPhase b order).2.1.reverse).1,
        by simp, ?_, ?_, ?_⟩
      · intro j hj
        rw [hstarts.1]
        exact List.mem_map_of_mem Ev.started hj
      · intro k
        exact ⟨connected_not_mem_startPhase b order k,
          connectFailed_not_mem_startPhase b order k⟩
      · rcases h with h | h
        · left
          simp only [List.append_assoc, List.mem_append] at h
          rcases h with h | h
          · exact absurd h hnc
          · simpa using h
        · right
          simp only [List.append_assoc, List.mem_append] at h
          rcases h with h | h
          · exact absurd h hncf
          · simpa using h
    · rw [runSession_eq_connectFail order b fj hss hcc] at h ⊢
      refine ⟨(startPhase b order).1,
        (connectPhase b order).1 ++ (stopPhase b (startPhase b order).2.1.reverse).1,
        by simp, ?_, ?_, ?_⟩
      · intro j hj
        rw [hstarts.1]
        exact List.mem_map_of_mem Ev.started hj
      · intro k
        exact ⟨connected_not_mem_startPhase b order k,
          connectFailed_not_mem_startPhase b order k⟩
      · rcases h with h | h
        · left
          simp only [List.append_assoc, List.mem_append] at h
          rcases h with h | h
          · exact absurd h hnc
          · simpa using h
        · right
          simp only [List.append_assoc, List.mem_append] at h
          rcases h with h | h
          · exact absurd h hncf
          · simpa using h
  · exfalso
    rw [runSession_eq_startFail order b fi hss] at h
    simp only [List.mem_append] at h
    rcases h with (h | h) | (h | h)
    · exact connected_not_mem_startPhase b order i h
    · rw [stopPhase_events] at h
      simp at h
    · exact connectFailed_not_mem_startPhase b order i h
    · rw [stopPhase_events] at h
      simp at h

/-- Witness for C1: a two-instance session whose first `connect()` invocation
fails; the failed invocation still occurs only past the start barrier. -/
theorem connect_after_start_barrier_witness :
    (Ev.connected 0 ∈
        (runSession [0, 1] ⟨fun _ => true, fun _ => false, fun _ => true⟩).events ∨
      Ev.connectFailed 0 ∈
        (runSession [0, 1] ⟨fun _ => true, fun _ => false, fun _ => true⟩).events) ∧
    (∃ l₁ l₂,
      (runSession [0, 1] ⟨fun _ => true, fun _ => false, fun _ => true⟩).events = l₁ ++ l₂ ∧
      (∀ j ∈ [0, 1], Ev.started j ∈ l₁) ∧
      (∀ k, Ev.connected k ∉ l₁ ∧ Ev.connectFailed k ∉ l₁) ∧
      (Ev.connected 0 ∈ l₂ ∨ Ev.connectFailed 0 ∈ l₂)) :=
  ⟨by decide,
   connect_after_start_barrier [0, 1] ⟨fun _ => true, fun _ => false, fun _ => true⟩ 0
     (by decide)⟩

theorem startPhase_fail_at (b : Behavior) (pre post : List Nat) (k : Nat)
    (hpre : ∀ j ∈ pre, b.startOk j = true) (hk : b.startOk k = false) :
    startPhase b (pre ++ k :: post) =
      (pre.map Ev.started ++ [Ev.startFailed k], pre, some k) := by
  induction pre with
  | nil => simp [startPhase, hk]
  | cons j rest ih =>
    have hj : b.startOk j = true := hpre j (by simp)
    have hrest : ∀ m ∈ rest, b.startOk m = true := fun m hm => hpre m (by simp [hm])
    simp [startPhase, hj, ih hrest]

/-- C3: if some instance's `start()` fails, the coordinator aborts the
remaining starts (no events for the instances after the failing one) and calls
`stop()` on every instance that started before it, in reverse start order,
with the session-level start error surfaced for the failing instance. -/
theorem start_failure_teardown (pre post : List Nat) (k : Nat) (b : Behavior)
    (hpre : ∀ j ∈ pre, b.startOk j = true) (hk : b.startOk k = false) :
    (runSession (pre ++ k :: post) b).error = some (.startError k) ∧
    (runSession (pre ++ k :: post) b).events =
      pre.map Ev.started ++ [Ev.startFailed k] ++ pre.reverse.map Ev.stopped := by
  have hsp := startPhase_fail_at b pre post k hpre hk
  have h2 : (startPhase b (pre ++ k :: post)).2.2 = some k := by rw [hsp]
  rw [runSession_eq_startFail (pre ++ k :: post) b k h2]
  refine ⟨rfl, ?_⟩
  rw [stopPhase_events]
  rw [hsp]

/-- Witness for C3: three instances where the second one's start fails; the
first is stopped and the third is never touched. -/
theorem start_failure_teardown_witness :
    ((∀ j ∈ [0], (⟨fun i => i != 1, fun _ => true, fun _ => true⟩ : Behavior).startOk j = true) ∧
      (⟨fun i => i != 1, fun _ => true, fun _ => true⟩ : Behavior).startOk 1 = false) ∧
    ((runSession ([0] ++ 1 :: [2]) ⟨fun i => i != 1, fun _ => true, fun _ => true⟩).error =
        some (.startError 1) ∧
      (runSession ([0] ++ 1 :: [2]) ⟨fun i => i != 1, fun _ => true, fun _ => true⟩).events =
        [0].map Ev.started ++ [Ev.startFailed 1] ++ [0].reverse.map Ev.stopped) :=
  ⟨⟨by decide, by decide⟩,
   start_failure_teardown [0] [2] 1 ⟨fun i => i != 1, fun _ => true, fun _ => true⟩
     (by decide) (by decide)⟩

theorem startPhase_congr (b₁ b₂ : Behavior) (hs : b₁.startOk = b₂.startOk) :
    ∀ order : List Nat, startPhase b₁ order = startPhase b₂ order := by
  intro order
  induction order with
  | nil => rfl
  | cons i rest ih => simp [startPhase, hs, ih]

theorem startOrder_runSession (order : List Nat) (b : Behavior) :
    startOrder (runSession order b).events = (startPhase b order).2.1 := by
  have hsp : ∀ l₁ l₂ : List Ev, startOrder (l₁ ++ l₂) = startOrder l₁ ++ startOrder l₂ := by
    intro l₁ l₂
    simp [startOrder, List.filterMap_append]
  have hstop : startOrder (stopPhase b (startPhase b order).2.1.reverse).1 = [] := by
    rw [stopPhase_events]
    simp [startOrder]
  rcases hss : (startPhase b order).2.2 with _ | fi
  · rcases hcc : (connectPhase b order).2 with _ | fj
    · rw [runSession_eq_ok order b hss hcc]
      simp only [hsp, startOrder_connectPhase, hstop, startOrder_startPhase]
      simp
    · rw [runSession_eq_connectFail order b fj hss hcc]
      simp only [hsp, startOrder_connectPhase, hstop, startOrder_startPhase]
      simp
  · rw [runSession_eq_startFail order b fi hss]
    simp only [hsp, hstop, startOrder_startPhase]
    simp

theorem stopOrder_runSession (order : List Nat) (b : Behavior) :
    stopOrder (runSession order b).events = (startPhase b order).2.1.reverse := by
  have hsp : ∀ l₁ l₂ : List Ev, stopOrder (l₁ ++ l₂) = stopOrder l₁ ++ stopOrder l₂ := by
    intro l₁ l₂
    simp [stopOrder, List.filterMap_append]
  rcases hss : (startPhase b order).2.2 with _ | fi
  · rcases hcc : (connectPhase b order).2 with _ | fj
    · rw [runSession_eq_ok order b hss hcc]
      simp only [hsp, stopOrder_connectPhase, stopOrder_startPhase, stopOrder_stopPhase]
      simp
    · rw [runSession_eq_connectFail order b fj hss hcc]
      simp only [hsp, stopOrder_connectPhase, stopOrder_startPhase, stopOrder_stopPhase]
      simp
  · rw [runSession_eq_startFail order b fi hss]
    simp only [hsp, stopOrder_startPhase, stopOrder_stopPhase]
    simp

/-- C4: the order in which `stop()` calls are issued is exactly the reverse of
the order in which `start()` calls succeeded, and two runs whose
configurations agree on start and connect outcomes (differing arbitrarily in
individual stop failures) issue stops in the identical order. -/
theorem stop_order_reverse_deterministic (order : List Nat) (b₁ b₂ : Behavior)
    (hs : b₁.startOk = b₂.startOk) (_hc : b₁.connectOk = b₂.connectOk) :
    stopOrder (runSession order b₁).events =
      (startOrder (runSession order b₁).events).reverse ∧
    stopOrder (runSession order b₂).events = stopOrder (runSession order b₁).events := by
  have hcongr := startPhase_congr b₁ b₂ hs order
  constructor
  · rw [stopOrder_runSession, startOrder_runSession]
  · rw [stopOrder_runSession, stopOrder_runSession, hcongr]

/-- Witness for C4: a three-instance session; in the first run every stop
fails, in the second every stop succeeds, and the stop order is the same
reverse of the start order in both. -/
theorem stop_order_reverse_deterministic_witness :
    ((⟨fun _ => true, fun _ => true, fun _ => false⟩ : Behavior).startOk =
        (⟨fun _ => true, fun _ => true, fun _ => true⟩ : Behavior).startOk ∧
      (⟨fun _ => true, fun _ => true, fun _ => false⟩ : Behavior).connectOk =
        (⟨fun _ => true, fun _ => true, fun _ => true⟩ : Behavior).connectOk) ∧
    (stopOrder (runSession [0, 1, 2] ⟨fun _ => true, fun _ => true, fun _ => false⟩).events =
        (startOrder (runSession [0, 1, 2]
          ⟨fun _ => true, fun _ => true, fun _ => false⟩).events).reverse ∧
      stopOrder (runSession [0, 1, 2] ⟨fun _ => true, fun _ => true, fun _ => true⟩).events =
        stopOrder (runSession [0, 1, 2]
          ⟨fun _ => true, fun _ => true, fun _ => false⟩).events) :=
  ⟨⟨rfl, rfl⟩,
   stop_order_reverse_deterministic [0, 1, 2]
     ⟨fun _ => true, fun _ => true, fun _ => false⟩
     ⟨fun _ => true, fun _ => true, fun _ => true⟩ rfl rfl⟩

/-- The transition relation of the spec's per-session state machine:
Idle → Starting → Connecting → Running → Stopping → Stopped, with Failed
reachable from Starting or Connecting and leaving only to Stopping. -/
def allowedStep : SessionState → SessionState → Bool := fun a c =>
  match a, c with
  | .Idle, .Starting => true
  | .Starting, .Connecting => true
  | .Connecting, .Running => true
  | .Running, .Stopping => true
  | .Stopping, .Stopped => true
  | .Starting, .Failed => true
  | .Connecting, .Failed => true
  | .Failed, .Stopping => true
  | _, _ => false

theorem runSession_states_cases (order : List Nat) (b : Behavior) :
    (runSession order b).states = [.Idle, .Starting, .Failed, .Stopping, .Stopped] ∨
    (runSession order b).states =
      [.Idle, .Starting, .Connecting, .Failed, .Stopping, .Stopped] ∨
    (runSession order b).states =
      [.Idle, .Starting, .Connecting, .Running, .Stopping, .Stopped] := by
  rcases hss : (startPhase b order).2.2 with _ | fi
  · rcases hcc : (connectPhase b order).2 with _ | fj
    · right; right
      rw [runSession_eq_ok order b hss hcc]
    · right; left
      rw [runSession_eq_connectFail order b fj hss hcc]
  · left
    rw [runSession_eq_startFail order b fi hss]

/-- C8: every session run visits a state sequence that starts at Idle, ends at
Stopped, takes only transitions of the machine
Idle → Starting → Connecting → Running → Stopping → Stopped with Failed
reachable from Starting or Connecting; whenever Failed is entered it is
entered from Starting or Connecting, and the state immediately after Failed
is always Stopping. -/
theorem session_state_machine (order : List Nat) (b : Behavior) :
    List.Chain' (fun s t => allowedStep s t = true) (runSession order b).states ∧
    (runSession order b).states.head? = some .Idle ∧
    (runSession order b).states.getLast? = some .Stopped ∧
    (∀ p ∈ (runSession order b).states.zip (runSession order b).states.tail,
      p.2 = SessionState.Failed → p.1 = .Starting ∨ p.1 = .Connecting) ∧
    (∀ p ∈ (runSession order b).states.zip (runSession order b).states.tail,
      p.1 = SessionState.Failed → p.2 = .Stopping) := by
  rcases runSession_states_cases order b with h | h | h <;> rw [h] <;>
    exact ⟨by simp [List.chain'_cons, allowedStep], by decide, by decide, by decide, by decide⟩

/-! ## Emulator instance stop contract -/

/-- Runtime resource state of one emulator instance: whether `start()` has
returned successfully, whether a port binding is held and whether the
underlying process or server is running (a partially failed `start()` may
leave resources held with `started = false`). -/
structure InstanceState where
  started : Bool
  portBound : Bool
  processRunning : Bool
deriving DecidableEq, Repr

/-- Stop-phase errors; per the spec these are collected, never thrown. -/
inductive StopError
  | killFailed
  | unbindFailed
deriving DecidableEq, Repr

/-- Modelled from the spec: `stop()` of the `EmulatorInstance` contract (the
concrete implementations are not among the sampled sources).  Best-effort
idempotent cleanup: it attempts to release only the resources actually held
(`killOk`/`unbindOk` say whether those release operations succeed), records
release failures as collected `StopError` values instead of raising, always
leaves the instance with all resources released, and never raises (the
`Except` error channel models a raised exception and is never used). -/
def stopInstance (s : InstanceState) (killOk unbindOk : Bool) :
    Except String (InstanceState × List StopError) :=
  let killErrs := if s.processRunning && !killOk then [StopError.killFailed] else []
  let bindErrs := if s.portBound && !unbindOk then [StopError.unbindFailed] else []
  .ok (⟨false, false, false⟩, killErrs ++ bindErrs)

/-- C7: calling `stop()` on an instance that never successfully started
(including after a partially failed `start()`) raises nothing; if such an
instance holds no resources the stop is a clean no-op; and once stop has run
(resources released), stopping again raises nothing and reports no errors. -/
theorem stopInstance_safe (s : InstanceState) (killOk unbindOk : Bool)
    (_hns : s.started = false) :
    (∃ out, stopInstance s killOk unbindOk = Except.ok out) ∧
    (s.portBound = false → s.processRunning = false →
      stopInstance s killOk unbindOk = Except.ok (⟨false, false, false⟩, [])) ∧
    (∀ out, stopInstance s killOk unbindOk = Except.ok out →
      ∀ killOk2 unbindOk2,
        stopInstance out.1 killOk2 unbindOk2 = Except.ok (⟨false, false, false⟩, [])) := by
  refine ⟨⟨_, rfl⟩, ?_, ?_⟩
  · intro hp hr
    simp [stopInstance, hp, hr]
  · intro out hout killOk2 unbindOk2
    have h1 : out.1 = ⟨false, false, false⟩ := by
      simp [stopInstance] at hout
      rw [← hout]
    rw [h1]
    simp [stopInstance]

/-- Witness for C7 at a concrete partially-started instance whose process kill
would fail. -/
theorem stopInstance_safe_witness :
    (⟨false, true, true⟩ : InstanceState).started = false ∧
    ((∃ out, stopInstance ⟨false, true, true⟩ false false = Except.ok out) ∧
      ((⟨false, true, true⟩ : InstanceState).portBound = false →
        (⟨false, true, true⟩ : InstanceState).processRunning = false →
        stopInstance ⟨false, true, true⟩ false false =
          Except.ok (⟨false, false, false⟩, [])) ∧
      (∀ out, stopInstance ⟨false, true, true⟩ false false = Except.ok out →
        ∀ killOk2 unbindOk2,
          stopInstance out.1 killOk2 unbindOk2 = Except.ok (⟨false, false, false⟩, []))) :=
  ⟨rfl, stopInstance_safe ⟨false, true, true⟩ false false rfl⟩

/-! ## Port allocation -/

/-- A port is valid when it is a positive integer in the TCP port range. -/
def validPort (p : Nat) : Bool := decide (1 ≤ p) && decide (p ≤ 65535)

/-- Modelled from the spec: the coordinator's serialized port-reservation
decisions (the implementation is not among the sampled sources).  Requests are
processed one at a time against the set of ports already bound in the session;
a request is granted only if the port is valid and not already bound,
otherwise the reservation (and with it the requesting instance's start)
fails. -/
def reservePorts (used : List Nat) : List Nat → Option (List Nat)
  | [] => some []
  | p :: rest =>
    if validPort p && !(used.contains p) then
      match reservePorts (p :: used) rest with
      | some ps => some (p :: ps)
      | none => none
    else
      none

/-- Modelled from the spec: the `EndpointBinding`s (`Address` records of
`src/emulator/types.ts`) held by the running instances of a session, obtained
by granting the session's port requests through the serialized reservation and
binding each granted port to the session host. -/
def sessionBindings (host : String) (requested : List Nat) : Option (List Address) :=
  match reservePorts [] requested with
  | some ps => some (ps.map fun p => ⟨host, p⟩)
  | none => none

theorem reservePorts_sound (used : List Nat) :
    ∀ (requested ps : List Nat), reservePorts used requested = some ps →
      (∀ p ∈ ps, validPort p = true ∧ p ∉ used) ∧ ps.Nodup := by
  intro requested
  induction requested generalizing used with
  | nil =>
    intro ps h
    simp [reservePorts] at h
    subst h
    simp
  | cons p rest ih =>
    intro ps h
    by_cases hgrant : (validPort p && !(used.contains p)) = true
    · rcases hrest : reservePorts (p :: used) rest with _ | ps'
      · rw [reservePorts, if_pos hgrant, hrest] at h
        cases h
      · rw [reservePorts, if_pos hgrant, hrest] at h
        simp only [Option.some_inj] at h
        subst h
        have ihr := ih (p :: used) ps' hrest
        simp only [Bool.and_eq_true, Bool.not_eq_true'] at hgrant
        have hpu : p ∉ used := by simpa using hgrant.2
        constructor
        · intro q hq
          rcases List.mem_cons.mp hq with hq1 | hq2
          · exact hq1 ▸ ⟨hgrant.1, hpu⟩
          · have := (ihr.1 q hq2).2
            exact ⟨(ihr.1 q hq2).1, fun hm => this (List.mem_cons_of_mem p hm)⟩
        · refine List.nodup_cons.mpr ⟨?_, ihr.2⟩
          intro hmem
          exact (ihr.1 p hmem).2 (List.mem_cons_self p used)
    · rw [reservePorts, if_neg hgrant] at h
      cases h

/-- C9: every endpoint binding held in a session carries a port that is a
positive integer in the valid TCP range, and no two bindings in the same
session hold the same port. -/
theorem session_bindings_ports_valid_distinct (host : String)
    (requested : List Nat) (bs : List Address)
    (h : sessionBindings host requested = some bs) :
    (∀ a ∈ bs, 1 ≤ a.port ∧ a.port ≤ 65535) ∧ (bs.map Address.port).Nodup := by
  rcases hres : reservePorts [] requested with _ | ps
  · rw [sessionBindings, hres] at h
    cases h
  · rw [sessionBindings, hres] at h
    simp only [Option.some_inj] at h
    subst h
    have hsound := reservePorts_sound [] requested ps hres
    constructor
    · intro a ha
      rcases List.mem_map.mp ha with ⟨p, hp, hpa⟩
      have hv := (hsound.1 p hp).1
      simp only [validPort, Bool.and_eq_true, decide_eq_true_eq] at hv
      rw [← hpa]
      exact hv
    · have hports : (List.map Address.port (ps.map fun p => ⟨host, p⟩)) = ps := by
        rw [List.map_map]
        have hid : (Address.port ∘ fun p => (⟨host, p⟩ : Address)) = id := rfl
        rw [hid, List.map_id]
      rw [hports]
      exact hsound.2

/-- Witness for C9 at a concrete session reserving three distinct ports. -/
theorem session_bindings_ports_valid_distinct_witness :
    sessionBindings "localhost" [8080, 9000, 5001] =
      some [⟨"localhost", 8080⟩, ⟨"localhost", 9000⟩, ⟨"localhost", 5001⟩] ∧
    ((∀ a ∈ [(⟨"localhost", 8080⟩ : Address), ⟨"localhost", 9000⟩, ⟨"localhost", 5001⟩],
        1 ≤ a.port ∧ a.port ≤ 65535) ∧
      (List.map Address.port
        [(⟨"localhost", 8080⟩ : Address), ⟨"localhost", 9000⟩, ⟨"localhost", 5001⟩]).Nodup) :=
  ⟨by decide,
   session_bindings_ports_valid_distinct "localhost" [8080, 9000, 5001]
     [⟨"localhost", 8080⟩, ⟨"localhost", 9000⟩, ⟨"localhost", 5001⟩] (by decide)⟩

/-! ## Mod installation parameters (`paramHelper.getParams`) -/

/-- A mod parameter spec entry: its name, human label and optional declared
default, mirroring the `{param, label, type, default?}` objects of the
`paramHelper` test suite (the `type` is always STRING there and carries no
behaviour relevant here). -/
structure ParamSpec where
  param : String
  label : String
  paramDefault : Option String
deriving DecidableEq, Repr

/-- The `FirebaseError` raised by `paramHelper`, reduced to its message. -/
structure FirebaseError where
  message : String
deriving DecidableEq, Repr

/-- The error message raised for a parameter that is missing from the env
file and has no declared default, as asserted by the `paramHelper` test
suite. -/
def missingParamMessage (name : String) : String :=
  name ++ " has not been set in the given params file and there is no default available. " ++
    "Please set this variable before installing again."

/-- Modelled from the spec: resolution of a single parameter against the
parsed env file (the `paramHelper` implementation is not among the sampled
sources, only its test suite is).  A parameter present in the env file takes
its env-file value; one absent but with a declared default takes the default;
one absent with no default raises the `FirebaseError` asserted by the
tests. -/
def resolveParam (s : ParamSpec) (envParams : List (String × String)) :
    Except FirebaseError (String × String) :=
  match envParams.lookup s.param with
  | some v => .ok (s.param, v)
  | none =>
    match s.paramDefault with
    | some d => .ok (s.param, d)
    | none => .error ⟨missingParamMessage s.param⟩

/-- Modelled from the spec: `populateDefaultParams` of `paramHelper` (the
implementation is not among the sampled sources, only its test suite is).
Resolves the spec parameters in order against the parsed env file, failing at
the first parameter that is neither in the env file nor defaulted. -/
def populateDefaultParams (envParams : List (String × String)) :
    List ParamSpec → Except FirebaseError (List (String × String))
  | [] => .ok []
  | s :: rest =>
    match resolveParam s envParams with
    | .ok kv =>
      match populateDefaultParams envParams rest with
      | .ok m => .ok (kv :: m)
      | .error e => .error e
    | .error e => .error e

/-- Modelled from the spec: `paramHelper.getParams` on the env-file path (the
implementation is not among the sampled sources, only its test suite is).
`envParams` is the parsed content of the env file; the project id is accepted
for interface fidelity (its only use in the original — substituting firebase
project variables into values — is outside the sampled behaviour). -/
def getParams (_projectId : String) (paramSpecs : List ParamSpec)
    (envParams : List (String × String)) :
    Except FirebaseError (List (String × String)) :=
  populateDefaultParams envParams paramSpecs

theorem populateDefaultParams_ok (envParams : List (String × String)) :
    ∀ paramSpecs : List ParamSpec,
      ((paramSpecs.map ParamSpec.param).Nodup) →
      (∀ s ∈ paramSpecs, ((envParams.lookup s.param).or s.paramDefault).isSome = true) →
      ∃ m, populateDefaultParams envParams paramSpecs = .ok m ∧
        ∀ s ∈ paramSpecs,
          m.lookup s.param = (envParams.lookup s.param).or s.paramDefault := by
  intro paramSpecs
  induction paramSpecs with
  | nil =>
    intro _ _
    exact ⟨[], rfl, by simp⟩
  | cons s rest ih =>
    intro hnodup hall
    have hs := hall s (by simp)
    have hrest := fun t ht => hall t (List.mem_cons_of_mem s ht)
    have hnodup' : (rest.map ParamSpec.param).Nodup := (List.nodup_cons.mp hnodup).2
    have hsnot : s.param ∉ rest.map ParamSpec.param := (List.nodup_cons.mp hnodup).1
    rcases ih hnodup' hrest with ⟨m, hm, hmlook⟩
    rcases hv : (envParams.lookup s.param).or s.paramDefault with _ | v
    · rw [hv] at hs; cases hs
    · have hres : resolveParam s envParams = .ok (s.param, v) := by
        rcases he : envParams.lookup s.param with _ | w
        · rcases hd : s.paramDefault with _ | d
          · rw [he, hd] at hv; cases hv
          · rw [he, hd] at hv
            simp only [Option.or] at hv
            cases hv
            simp [resolveParam, he, hd]
        · rw [he] at hv
          simp only [Option.or] at hv
          cases hv
          simp [resolveParam, he]
      refine ⟨(s.param, v) :: m, ?_, ?_⟩
      · rw [populateDefaultParams, hres, hm]
      · intro t ht
        rcases List.mem_cons.mp ht with ht1 | ht2
        · subst ht1
          simp [List.lookup, hv]
        · have htne : t.param ≠ s.param := by
            intro hEq
            exact hsnot (hEq ▸ List.mem_map_of_mem ParamSpec.param ht2)
          have : (t.param == s.param) = false := beq_eq_false_iff_ne.mpr htne
          simp [List.lookup, this, hmlook t ht2]

theorem populateDefaultParams_error (envParams : List (String × String)) :
    ∀ paramSpecs : List ParamSpec,
      (∃ s ∈ paramSpecs, envParams.lookup s.param = none ∧ s.paramDefault = none) →
      ∃ s ∈ paramSpecs, envParams.lookup s.param = none ∧ s.paramDefault = none ∧
        populateDefaultParams envParams paramSpecs =
          .error ⟨missingParamMessage s.param⟩ := by
  intro paramSpecs
  induction paramSpecs with
  | nil =>
    intro h
    rcases h with ⟨s, hs, _⟩
    cases hs
  | cons s rest ih =>
    intro h
    rcases hres : resolveParam s envParams with e | kv
    · have hmiss : envParams.lookup s.param = none ∧ s.paramDefault = none ∧
          e = ⟨missingParamMessage s.param⟩ := by
        rcases he : envParams.lookup s.param with _ | w
        · rcases hd : s.paramDefault with _ | d
          · rw [resolveParam, he, hd] at hres
            cases hres
            exact ⟨rfl, rfl, rfl⟩
          · rw [resolveParam, he, hd] at hres
            cases hres
        · rw [resolveParam, he] at hres
          cases hres
      refine ⟨s, by simp, hmiss.1, hmiss.2.1, ?_⟩
      rw [populateDefaultParams, hres, hmiss.2.2]
    · have hsok : ¬(envParams.lookup s.param = none ∧ s.paramDefault = none) := by
        rintro ⟨he, hd⟩
        rw [resolveParam, he, hd] at hres
        cases hres
      have hinrest : ∃ t ∈ rest, envParams.lookup t.param = none ∧ t.paramDefault = none := by
        rcases h with ⟨t, ht, hmiss⟩
        rcases List.mem_cons.mp ht with ht1 | ht2
        · exact absurd (ht1 ▸ hmiss) hsok
        · exact ⟨t, ht2, hmiss⟩
      rcases ih hinrest with ⟨t, ht, he, hd, herr⟩
      refine ⟨t, List.mem_cons_of_mem s ht, he, hd, ?_⟩
      rw [populateDefaultParams, hres, herr]

/-- C10: `getParams` with an env file maps each spec parameter present in the
parsed env file to its env-file value, maps each spec parameter absent from
the env file but carrying a declared default to that default, and — when some
spec parameter is absent from the env file with no default — rejects with the
`FirebaseError` stating that the parameter has not been set and no default is
available. -/
theorem getParams_env_resolution (projectId : String) (paramSpecs : List ParamSpec)
    (envParams : List (String × String))
    (hnodup : (paramSpecs.map ParamSpec.param).Nodup) :
    ((∀ s ∈ paramSpecs, ((envParams.lookup s.param).or s.paramDefault).isSome = true) →
      ∃ m, getParams projectId paramSpecs envParams = .ok m ∧
        ∀ s ∈ paramSpecs,
          m.lookup s.param = (envParams.lookup s.param).or s.paramDefault) ∧
    ((∃ s ∈ paramSpecs, envParams.lookup s.param = none ∧ s.paramDefault = none) →
      ∃ s ∈ paramSpecs, envParams.lookup s.param = none ∧ s.paramDefault = none ∧
        getParams projectId paramSpecs envParams =
          .error ⟨missingParamMessage s.param⟩) := by
  constructor
  · intro hall
    exact populateDefaultParams_ok envParams paramSpecs hnodup hall
  · intro hmiss
    exact populateDefaultParams_error envParams paramSpecs hmiss

/-- Witness for C10 at the test suite's parameter specs, with the env file
providing `A_PARAMETER` and the declared default covering
`ANOTHER_PARAMETER`. -/
theorem getParams_env_resolution_witness :
    (([⟨"A_PARAMETER", "Param", none⟩,
        ⟨"ANOTHER_PARAMETER", "Another Param", some "default"⟩] :
          List ParamSpec).map ParamSpec.param).Nodup ∧
    (((∀ s ∈ ([⟨"A_PARAMETER", "Param", none⟩,
          ⟨"ANOTHER_PARAMETER", "Another Param", some "default"⟩] : List ParamSpec),
        (([("A_PARAMETER", "aValue")].lookup s.param).or s.paramDefault).isSome = true) →
      ∃ m, getParams "test-proj"
          [⟨"A_PARAMETER", "Param", none⟩,
            ⟨"ANOTHER_PARAMETER", "Another Param", some "default"⟩]
          [("A_PARAMETER", "aValue")] = .ok m ∧
        ∀ s ∈ ([⟨"A_PARAMETER", "Param", none⟩,
            ⟨"ANOTHER_PARAMETER", "Another Param", some "default"⟩] : List ParamSpec),
          m.lookup s.param = ([("A_PARAMETER", "aValue")].lookup s.param).or s.paramDefault) ∧
    ((∃ s ∈ ([⟨"A_PARAMETER", "Param", none⟩,
          ⟨"ANOTHER_PARAMETER", "Another Param", some "default"⟩] : List ParamSpec),
        [("A_PARAMETER", "aValue")].lookup s.param = none ∧ s.paramDefault = none) →
      ∃ s ∈ ([⟨"A_PARAMETER", "Param", none⟩,
          ⟨"ANOTHER_PARAMETER", "Another Param", some "default"⟩] : List ParamSpec),
        [("A_PARAMETER", "aValue")].lookup s.param = none ∧ s.paramDefault = none ∧
        getParams "test-proj"
          [⟨"A_PARAMETER", "Param", none⟩,
            ⟨"ANOTHER_PARAMETER", "Another Param", some "default"⟩]
          [("A_PARAMETER", "aValue")] = .error ⟨missingParamMessage s.param⟩)) :=
  ⟨by decide,
   getParams_env_resolution "test-proj"
     [⟨"A_PARAMETER", "Param", none⟩,
       ⟨"ANOTHER_PARAMETER", "Another Param", some "default"⟩]
     [("A_PARAMETER", "aValue")] (by decide)⟩
